import Mathlib

/-!
Verification of the descriptor-synthesis engine of the entproto service
generator (`entproto/service.go`).  The Go data model (`descriptorpb`
descriptor protos, the `service` annotation, the method bitmask) and the
four synthesis routines (`genMethodProtos`, `genExtraMethodProtos`,
`createServiceResources`, `dedupeServiceMessages`) are shallowly embedded
below; pointer-typed proto fields become `Option`, Go slices become lists,
and the `(value, error)` return convention becomes `Except`.
-/

namespace Entproto

/-- Wire types of `descriptorpb.FieldDescriptorProto_Type` used by the
generator (`named_messages.go` const block plus MESSAGE/ENUM). -/
inductive FieldType where
  | TYPE_BOOL
  | TYPE_STRING
  | TYPE_INT32
  | TYPE_INT64
  | TYPE_UINT32
  | TYPE_UINT64
  | TYPE_FLOAT
  | TYPE_MESSAGE
  | TYPE_ENUM
deriving DecidableEq, Repr

/-- The only `descriptorpb.FieldDescriptorProto_Label` the generator sets. -/
inductive FieldLabel where
  | LABEL_REPEATED
deriving DecidableEq, Repr

/-- Embedding of `descriptorpb.FieldDescriptorProto`: every component is a pointer in Go,
hence an `Option` here (`none` = nil pointer). -/
structure FieldDescriptorProto where
  name : Option String := none
  number : Option Int := none
  label : Option FieldLabel := none
  type : Option FieldType := none
  typeName : Option String := none
deriving DecidableEq, Repr

/-- Embedding of `descriptorpb.EnumValueDescriptorProto`. -/
structure EnumValueDescriptorProto where
  name : Option String := none
  number : Option Int := none
deriving DecidableEq, Repr

/-- Embedding of `descriptorpb.EnumDescriptorProto`. -/
structure EnumDescriptorProto where
  name : Option String := none
  value : List EnumValueDescriptorProto := []
deriving DecidableEq, Repr

/-- Embedding of `descriptorpb.DescriptorProto` (a message descriptor), restricted to the
components `service.go` touches. -/
structure DescriptorProto where
  name : Option String := none
  field : List FieldDescriptorProto := []
  enumType : List EnumDescriptorProto := []
deriving DecidableEq, Repr

/-- Go `msg.GetName()`: nil-safe access returning the empty string default. -/
def DescriptorProto.getName (msg : DescriptorProto) : String :=
  msg.name.getD ""

/-- Embedding of `descriptorpb.MethodDescriptorProto`. -/
structure MethodDescriptorProto where
  name : Option String := none
  inputType : Option String := none
  outputType : Option String := none
deriving DecidableEq, Repr

/-- Embedding of `descriptorpb.ServiceDescriptorProto`. -/
structure ServiceDescriptorProto where
  name : Option String := none
  method : List MethodDescriptorProto := []
deriving DecidableEq, Repr

/-- Go `type Method uint` (a bitmask). -/
abbrev Method := Nat

/- The Go const block starts with three non-Method constants, so `iota` is 3
at `MethodCreate Method = 1 << iota`; the masks therefore occupy bits 3..8. -/

/-- Go `MethodCreate Method = 1 << iota` with iota = 3. -/
def MethodCreate : Method := 8

/-- Go `MethodGet`. -/
def MethodGet : Method := 16

/-- Go `MethodUpdate`. -/
def MethodUpdate : Method := 32

/-- Go `MethodDelete`. -/
def MethodDelete : Method := 64

/-- Go `MethodList`. -/
def MethodList : Method := 128

/-- Go `MethodBatchCreate`. -/
def MethodBatchCreate : Method := 256

/-- Go `MethodAll = MethodCreate | MethodGet | MethodUpdate | MethodDelete |
MethodList | MethodBatchCreate`. -/
def MethodAll : Method :=
  MethodCreate ||| MethodGet ||| MethodUpdate ||| MethodDelete ||| MethodList ||| MethodBatchCreate

/-- Go `func (m Method) Is(n Method) bool: m&n != 0`. -/
def Method.Is (m n : Method) : Bool := (m &&& n) != 0

/-- The `pbfield` struct (declared outside `service.go`; its components are
exactly the ones `genExtraMethodProtos` and `named_messages.go` read:
`FieldName`, `Number` (a Go `int`), `Type`, `TypeName`, `Repeated`). -/
structure pbfield where
  FieldName : String := ""
  Number : Int := 0
  Type' : FieldType := FieldType.TYPE_BOOL
  TypeName : String := ""
  Repeated : Bool := false
deriving DecidableEq, Repr

/-- Embedding of `extraMethodDef` from `service.go`. -/
structure extraMethodDef where
  Name : String := ""
  InputFields : List pbfield := []
  OutputFields : List pbfield := []
deriving DecidableEq, Repr

/-- The `service` annotation struct from `service.go`; defaults are the Go
zero values. -/
structure service where
  Generate : Bool := false
  Methods : Method := 0
  BlockName : String := ""
  ExtraMethods : List extraMethodDef := []

/-- Go `ServiceOption func(svc *service)`: an in-place update becomes an
endofunction on `service`. -/
def ServiceOption := service → service

/-- Go `func Methods(methods Method) ServiceOption`. -/
def Methods (methods : Method) : ServiceOption :=
  fun s => { s with Methods := methods }

/-- Go `func BlockName(name string) ServiceOption`. -/
def BlockName (name : String) : ServiceOption :=
  fun s => { s with BlockName := name }

/-- Go `func ExtraMethod(name, input, output) ServiceOption`. -/
def ExtraMethod (name : String) (input output : List pbfield) : ServiceOption :=
  fun s =>
    { s with ExtraMethods := s.ExtraMethods ++ [{ Name := name, InputFields := input, OutputFields := output }] }

/-- The option-application loop inside `func Service`: each option is applied
in order to `service{Generate: true}`. -/
def applyServiceOptions (opts : List ServiceOption) : service :=
  opts.foldl (fun s apply => apply s) { Generate := true }

/-- Go `func Service(opts ...ServiceOption)`: applies the options, then defaults
`Methods` to `MethodAll` when the applied options left it zero. -/
def Service (opts : List ServiceOption) : service :=
  let s := applyServiceOptions opts
  if s.Methods = 0 then { s with Methods := MethodAll } else s

/-- The slice of the external (ent-side) `gen.Type` that `service.go` reads:
the entity name, the result of the external `toProtoFieldDescriptor` call on
the ID field (which can fail, hence `Except`), the three ID-type predicates
tested by the List branch, and the `genType.ID.Type.String()` rendering used
in its error message. -/
structure GenType where
  Name : String
  idDescriptor : Except String FieldDescriptorProto
  idInteger : Bool
  idIsUUID : Bool
  idIsString : Bool
  idTypeString : String

/-- The error outcomes of `genMethodProtos`/`createServiceResources`:
`typeMapping` wraps a failure of the external ID-field conversion,
`unsupportedIDType` is the List-branch error (it records the schema name and
ID type formatted into the Go error string), `unknownMethod` is the switch
default. -/
inductive GenError where
  | typeMapping (msg : String)
  | unsupportedIDType (schemaName idType : String)
  | unknownMethod (m : Method)
deriving DecidableEq, Repr

/-- Embedding of `methodResources` from `service.go`. -/
structure MethodResources where
  methodDescriptor : MethodDescriptorProto
  messages : List DescriptorProto
deriving DecidableEq, Repr

/-- Embedding of `serviceResources` from `service.go`. -/
structure ServiceResources where
  svc : ServiceDescriptorProto
  svcMessages : List DescriptorProto
deriving DecidableEq, Repr

/-- Go `int32(n)` conversion applied by `genExtraMethodProtos` to the
declared `int` field number: two's-complement wraparound into
`[-2^31, 2^31)`. -/
def int32 (n : Int) : Int := (n + 2 ^ 31) % 2 ^ 32 - 2 ^ 31

/-- One iteration of the two identical field-emission loops of
`genExtraMethodProtos`: name and (converted) number always set; a nonempty
`TypeName` forces MESSAGE type, otherwise the declared scalar type is used;
`Repeated` sets the REPEATED label. -/
def extraFieldDescriptor (f : pbfield) : FieldDescriptorProto :=
  let base : FieldDescriptorProto := { name := some f.FieldName, number := some (int32 f.Number) }
  let withType : FieldDescriptorProto :=
    if f.TypeName ≠ "" then
      { base with typeName := some f.TypeName, type := some FieldType.TYPE_MESSAGE }
    else
      { base with type := some f.Type' }
  if f.Repeated then { withType with label := some FieldLabel.LABEL_REPEATED } else withType

/-- Embedding of `genExtraMethodProtos`: synthesizes `<Name>Request` / `<Name>Response`
from the declared field lists.  The Go function returns a `(methodResources,
error)` pair whose error is always nil, embedded as an `Except` that is
always `ok`. -/
def genExtraMethodProtos (m : extraMethodDef) : Except GenError MethodResources :=
  let inputTypeName := m.Name ++ "Request"
  let outputTypeName := m.Name ++ "Response"
  let input : DescriptorProto :=
    { name := some inputTypeName, field := m.InputFields.map extraFieldDescriptor }
  let output : DescriptorProto :=
    { name := some outputTypeName, field := m.OutputFields.map extraFieldDescriptor }
  Except.ok
    { methodDescriptor :=
        { name := some m.Name, inputType := some inputTypeName, outputType := some outputTypeName },
      messages := [input, output] }

/-- The `View` enum emitted (twice, inline) by the Get and List branches. -/
def viewEnumDescriptor : EnumDescriptorProto :=
  { name := some "View",
    value :=
      [ { number := some 0, name := some "VIEW_UNSPECIFIED" },
        { number := some 1, name := some "BASIC" },
        { number := some 2, name := some "WITH_EDGE_IDS" } ] }

/-- The `singleMessageField` local of `genMethodProtos`: the snake-cased,
entity-typed MESSAGE field numbered 1. -/
def singleMessageField (snake : String → String) (genType : GenType) : FieldDescriptorProto :=
  { name := some (snake genType.Name), number := some 1,
    type := some FieldType.TYPE_MESSAGE, typeName := some genType.Name }

/-- The `repeatedMessageField` local of `genMethodProtos`: the snake-cased
pluralized, repeated entity-typed MESSAGE field numbered 1. -/
def repeatedMessageField (snake plural : String → String) (genType : GenType) : FieldDescriptorProto :=
  { name := some (snake (plural genType.Name)), number := some 1,
    label := some FieldLabel.LABEL_REPEATED,
    type := some FieldType.TYPE_MESSAGE, typeName := some genType.Name }

/-- The `switch m` body of `genMethodProtos`, producing the method name, the
input message, the output type name and the synthesized message list of one
standard method (cases in source order: Get, Create, Update, Delete, List,
BatchCreate, default).  The external `snake` and `plural` helpers are
parameters. -/
def genMethodBranch (snake plural : String → String) (genType : GenType)
    (m : Method) (idField : FieldDescriptorProto) :
    Except GenError (String × DescriptorProto × String × List DescriptorProto) :=
  if m = MethodGet then
    let input : DescriptorProto :=
      { name := some ("Get" ++ genType.Name ++ "Request"),
        field :=
          [ idField,
            { name := some "view", number := some 2,
              type := some FieldType.TYPE_ENUM, typeName := some "View" } ],
        enumType := [viewEnumDescriptor] }
    Except.ok ("Get" ++ genType.Name, input, genType.Name, [input])
  else if m = MethodCreate then
    let input : DescriptorProto :=
      { name := some ("Create" ++ genType.Name ++ "Request"),
        field := [singleMessageField snake genType] }
    Except.ok ("Create" ++ genType.Name, input, genType.Name, [input])
  else if m = MethodUpdate then
    let input : DescriptorProto :=
      { name := some ("Update" ++ genType.Name ++ "Request"),
        field := [singleMessageField snake genType] }
    Except.ok ("Update" ++ genType.Name, input, genType.Name, [input])
  else if m = MethodDelete then
    let input : DescriptorProto :=
      { name := some ("Delete" ++ genType.Name ++ "Request"),
        field := [idField] }
    Except.ok ("Delete" ++ genType.Name, input, "google.protobuf.Empty", [input])
  else if m = MethodList then
    if !(genType.idInteger || genType.idIsUUID || genType.idIsString) then
      Except.error (GenError.unsupportedIDType genType.Name genType.idTypeString)
    else
      let input : DescriptorProto :=
        { name := some ("List" ++ genType.Name ++ "Request"),
          field :=
            [ { name := some "page_size", number := some 1, type := some FieldType.TYPE_INT32 },
              { name := some "page_token", number := some 2, type := some FieldType.TYPE_STRING },
              { name := some "view", number := some 3,
                type := some FieldType.TYPE_ENUM, typeName := some "View" } ],
          enumType := [viewEnumDescriptor] }
      let output : DescriptorProto :=
        { name := some ("List" ++ genType.Name ++ "Response"),
          field :=
            [ { name := some (snake genType.Name ++ "_list"), number := some 1,
                label := some FieldLabel.LABEL_REPEATED,
                type := some FieldType.TYPE_MESSAGE, typeName := some genType.Name },
              { name := some "next_page_token", number := some 2,
                type := some FieldType.TYPE_STRING } ] }
      Except.ok ("List" ++ genType.Name, input, "List" ++ genType.Name ++ "Response",
        [input, output])
  else if m = MethodBatchCreate then
    let createRequest : DescriptorProto :=
      { name := some ("Create" ++ genType.Name ++ "Request"),
        field := [singleMessageField snake genType] }
    let input : DescriptorProto :=
      { name := some ("BatchCreate" ++ plural genType.Name ++ "Request"),
        field :=
          [ { name := some "requests", number := some 1,
              label := some FieldLabel.LABEL_REPEATED,
              type := some FieldType.TYPE_MESSAGE,
              typeName := some ("Create" ++ genType.Name ++ "Request") } ] }
    let output : DescriptorProto :=
      { name := some ("BatchCreate" ++ plural genType.Name ++ "Response"),
        field := [repeatedMessageField snake plural genType] }
    Except.ok ("BatchCreate" ++ genType.Name, input,
      "BatchCreate" ++ plural genType.Name ++ "Response", [createRequest, input, output])
  else
    Except.error (GenError.unknownMethod m)

/-- Embedding of `genMethodProtos`: converts the ID field first (failing like the Go code
does before the switch), runs the switch body, and assembles the shared
trailing `return` (method descriptor named by the branch, input type taken
from the input message's name, output type from the branch). -/
def genMethodProtos (snake plural : String → String) (genType : GenType) (m : Method) :
    Except GenError MethodResources :=
  match genType.idDescriptor with
  | Except.error e => Except.error (GenError.typeMapping e)
  | Except.ok idField =>
    match genMethodBranch snake plural genType m idField with
    | Except.error e => Except.error e
    | Except.ok (methodName, input, outputName, messages) =>
      Except.ok
        { methodDescriptor :=
            { name := some methodName, inputType := input.name, outputType := some outputName },
          messages := messages }

/-- The seen-set loop of `dedupeServiceMessages` (`seen` is the Go map's key
set, `GetName`-keyed). -/
def dedupeGo : List DescriptorProto → List String → List DescriptorProto
  | [], _ => []
  | msg :: rest, seen =>
    if seen.contains msg.getName then dedupeGo rest seen
    else msg :: dedupeGo rest (msg.getName :: seen)

/-- Embedding of `dedupeServiceMessages`: drop every message whose name was already seen. -/
def dedupeServiceMessages (msgs : List DescriptorProto) : List DescriptorProto :=
  dedupeGo msgs []

/-- The fixed standard-method declaration order iterated by
`createServiceResources`. -/
def standardMethodOrder : List Method :=
  [MethodCreate, MethodGet, MethodUpdate, MethodDelete, MethodList, MethodBatchCreate]

/-- Embedding of `createServiceResources`: service named by the block-name override when
nonempty, else `<Entity>Service`; loops the standard methods in fixed order
(skipping disabled ones, failing fast on a generation error), then the extra
methods, accumulating method descriptors and messages, and finally dedupes
the message list. -/
def createServiceResources (snake plural : String → String) (genType : GenType)
    (methods : Method) (blockName : String) (extraMethods : List extraMethodDef) :
    Except GenError ServiceResources :=
  let serviceFqn := if blockName ≠ "" then blockName else genType.Name ++ "Service"
  (standardMethodOrder.foldlM
      (fun (acc : List MethodDescriptorProto × List DescriptorProto) m =>
        if Method.Is methods m then
          (genMethodProtos snake plural genType m).bind fun resources =>
            Except.ok (acc.1 ++ [resources.methodDescriptor], acc.2 ++ resources.messages)
        else Except.ok acc)
      ([], [])).bind fun acc =>
  (extraMethods.foldlM
      (fun (acc : List MethodDescriptorProto × List DescriptorProto) m =>
        (genExtraMethodProtos m).bind fun resources =>
          Except.ok (acc.1 ++ [resources.methodDescriptor], acc.2 ++ resources.messages))
      acc).bind fun acc =>
  Except.ok
    { svc := { name := some serviceFqn, method := acc.1 },
      svcMessages := dedupeServiceMessages acc.2 }

/-- Fail-fast sequencing of a generator over a list (a non-tail-recursive
`mapM` for `Except`, used only to state the assembler's contract). -/
def collectM {ε α β : Type} (gen : α → Except ε β) : List α → Except ε (List β)
  | [] => Except.ok []
  | x :: xs =>
    (gen x).bind fun r => (collectM gen xs).bind fun rs => Except.ok (r :: rs)

/-- The standard methods enabled by a bitmask, in the fixed declaration
order. -/
def enabledStandardMethods (methods : Method) : List Method :=
  standardMethodOrder.filter (fun m => Method.Is methods m)

/-- The ServiceAssembler contract as the spec words it: one service named by
the block-name override (used verbatim when supplied) or `<Entity>Service`,
whose methods are the enabled standard methods in the fixed order Create,
Get, Update, Delete, List, BatchCreate followed by the extra methods in
declared order, over the deduplicated union of all generated messages. -/
def createServiceResourcesSpec (snake plural : String → String) (genType : GenType)
    (methods : Method) (blockName : String) (extraMethods : List extraMethodDef) :
    Except GenError ServiceResources :=
  (collectM (genMethodProtos snake plural genType) (enabledStandardMethods methods)).bind
    fun std =>
  (collectM genExtraMethodProtos extraMethods).bind fun extras =>
  Except.ok
    { svc :=
        { name := some (if blockName ≠ "" then blockName else genType.Name ++ "Service"),
          method := (std ++ extras).map MethodResources.methodDescriptor },
      svcMessages :=
        dedupeServiceMessages ((std ++ extras).flatMap MethodResources.messages) }

/-- The `Create<Entity>Request` message synthesized by the Create branch and
(again, unconditionally) by the BatchCreate branch. -/
def createReqMsg (snake : String → String) (genType : GenType) : DescriptorProto :=
  { name := some ("Create" ++ genType.Name ++ "Request"),
    field := [singleMessageField snake genType] }

/-! Concrete sample data used by witnesses and counterexamples.  `snake` and
`plural` live outside `service.go` (the snake-caser in the adapter, the
pluralizer in the ent generator); the samples below fix their behaviour on
the names they are applied to. -/

/-- Sample snake-caser: behaves like the adapter's on the names used here. -/
def snakeSample : String → String :=
  fun s => if s = "User" then "user" else if s = "Users" then "users" else s

/-- Sample pluralizer: behaves like the ent pluralizer on the names used
here. -/
def pluralSample : String → String :=
  fun s => if s = "User" then "Users" else s ++ "s"

/-- A converted ID field descriptor for the sample `User` entity. -/
def userIdField : FieldDescriptorProto :=
  { name := some "id", number := some 1, type := some FieldType.TYPE_UINT32 }

/-- A sample entity `User` with an integer (hence List-supported) ID. -/
def userGenType : GenType :=
  { Name := "User", idDescriptor := Except.ok userIdField,
    idInteger := true, idIsUUID := false, idIsString := false, idTypeString := "uint32" }

/-- A sample entity `Price` whose ID is a raw float: convertible to a proto
field, but in none of the integer/UUID/string families List supports. -/
def priceGenType : GenType :=
  { Name := "Price",
    idDescriptor :=
      Except.ok { name := some "id", number := some 1, type := some FieldType.TYPE_FLOAT },
    idInteger := false, idIsUUID := false, idIsString := false, idTypeString := "float64" }

/-- An extra-method definition whose two input fields share field number 1. -/
def dupExtraDef : extraMethodDef :=
  { Name := "Audit",
    InputFields :=
      [ { FieldName := "a", Number := 1, Type' := FieldType.TYPE_INT32 },
        { FieldName := "b", Number := 1, Type' := FieldType.TYPE_INT32 } ],
    OutputFields := [] }

/-- The `AuditRequest` message synthesized from `dupExtraDef`: both fields
carry number 1. -/
def auditReqMsg : DescriptorProto :=
  { name := some "AuditRequest",
    field :=
      [ { name := some "a", number := some 1, type := some FieldType.TYPE_INT32 },
        { name := some "b", number := some 1, type := some FieldType.TYPE_INT32 } ] }

/-- The resources `genExtraMethodProtos` emits for `dupExtraDef`. -/
def dupExtraResources : MethodResources :=
  { methodDescriptor :=
      { name := some "Audit", inputType := some "AuditRequest",
        outputType := some "AuditResponse" },
    messages := [auditReqMsg, { name := some "AuditResponse" }] }

/-- The `CreateUserRequest` message for the sample `User` entity. -/
def createUserReqMsg : DescriptorProto :=
  { name := some "CreateUserRequest",
    field :=
      [ { name := some "user", number := some 1,
          type := some FieldType.TYPE_MESSAGE, typeName := some "User" } ] }

/-- Output of the assembler for `User` with only Create enabled plus the
duplicate-number extra method. -/
def dupServiceOut : ServiceResources :=
  { svc :=
      { name := some "UserService",
        method :=
          [ { name := some "CreateUser", inputType := some "CreateUserRequest",
              outputType := some "User" },
            { name := some "Audit", inputType := some "AuditRequest",
              outputType := some "AuditResponse" } ] },
    svcMessages := [createUserReqMsg, auditReqMsg, { name := some "AuditResponse" }] }

/-- Output of the assembler for `User` with only BatchCreate enabled: the
`CreateUserRequest` message is still produced. -/
def batchOnlyOut : ServiceResources :=
  { svc :=
      { name := some "UserService",
        method :=
          [ { name := some "BatchCreateUser",
              inputType := some "BatchCreateUsersRequest",
              outputType := some "BatchCreateUsersResponse" } ] },
    svcMessages :=
      [ createUserReqMsg,
        { name := some "BatchCreateUsersRequest",
          field :=
            [ { name := some "requests", number := some 1,
                label := some FieldLabel.LABEL_REPEATED,
                type := some FieldType.TYPE_MESSAGE,
                typeName := some "CreateUserRequest" } ] },
        { name := some "BatchCreateUsersResponse",
          field :=
            [ { name := some "users", number := some 1,
                label := some FieldLabel.LABEL_REPEATED,
                type := some FieldType.TYPE_MESSAGE, typeName := some "User" } ] } ] }

/-- The resources the BatchCreate branch emits for the sample `User`
entity. -/
def batchCreateUserResources : MethodResources :=
  { methodDescriptor :=
      { name := some "BatchCreateUser",
        inputType := some "BatchCreateUsersRequest",
        outputType := some "BatchCreateUsersResponse" },
    messages := (batchOnlyOut.svcMessages) }

/-- The `GetUserRequest` message for the sample `User` entity. -/
def getUserRequestMsg : DescriptorProto :=
  { name := some "GetUserRequest",
    field :=
      [ userIdField,
        { name := some "view", number := some 2,
          type := some FieldType.TYPE_ENUM, typeName := some "View" } ],
    enumType := [viewEnumDescriptor] }

/-- The resources the Get branch emits for the sample `User` entity. -/
def getUserResources : MethodResources :=
  { methodDescriptor :=
      { name := some "GetUser", inputType := some "GetUserRequest",
        outputType := some "User" },
    messages := [getUserRequestMsg] }

/-- The resources the List branch emits for the sample `User` entity. -/
def listUserResources : MethodResources :=
  { methodDescriptor :=
      { name := some "ListUser", inputType := some "ListUserRequest",
        outputType := some "ListUserResponse" },
    messages :=
      [ { name := some "ListUserRequest",
          field :=
            [ { name := some "page_size", number := some 1,
                type := some FieldType.TYPE_INT32 },
              { name := some "page_token", number := some 2,
                type := some FieldType.TYPE_STRING },
              { name := some "view", number := some 3,
                type := some FieldType.TYPE_ENUM, typeName := some "View" } ],
          enumType := [viewEnumDescriptor] },
        { name := some "ListUserResponse",
          field :=
            [ { name := some "user_list", number := some 1,
                label := some FieldLabel.LABEL_REPEATED,
                type := some FieldType.TYPE_MESSAGE, typeName := some "User" },
              { name := some "next_page_token", number := some 2,
                type := some FieldType.TYPE_STRING } ] } ] }


/-! Helper lemmas. -/

theorem append_ne_append_of_head {c d : Char} (hcd : c ≠ d) (a b s t : String)
    (ha : a.data.head? = some c) (hb : b.data.head? = some d) : a ++ s ≠ b ++ t := by
  intro h
  have hdata := congrArg String.data h
  rw [String.data_append, String.data_append] at hdata
  cases ha' : a.data with
  | nil => rw [ha'] at ha; simp at ha
  | cons x xs =>
    cases hb' : b.data with
    | nil => rw [hb'] at hb; simp at hb
    | cons y ys =>
      rw [ha'] at ha hdata
      rw [hb'] at hb hdata
      simp only [List.head?_cons, Option.some.injEq] at ha hb
      simp only [List.cons_append, List.cons.injEq] at hdata
      exact hcd (by rw [← ha, ← hb]; exact hdata.1)

theorem dedupeGo_sublist :
    ∀ (l : List DescriptorProto) (seen : List String), (dedupeGo l seen).Sublist l := by
  intro l
  induction l with
  | nil => intro seen; simp [dedupeGo]
  | cons msg rest ih =>
    intro seen
    by_cases h : msg.getName ∈ seen
    · rw [dedupeGo, if_pos (List.elem_iff.mpr h)]
      exact List.Sublist.cons msg (ih seen)
    · rw [dedupeGo, if_neg (fun hc => h (List.elem_iff.mp hc))]
      exact List.Sublist.cons₂ msg (ih (msg.getName :: seen))

theorem dedupeGo_filter (n : String) :
    ∀ (l : List DescriptorProto) (seen : List String),
      (dedupeGo l seen).filter (fun msg => msg.getName == n)
        = if n ∈ seen then [] else (l.filter (fun msg => msg.getName == n)).take 1 := by
  intro l
  induction l with
  | nil => intro seen; by_cases h : n ∈ seen <;> simp [dedupeGo, h]
  | cons msg rest ih =>
    intro seen
    by_cases hseen : msg.getName ∈ seen
    · rw [dedupeGo, if_pos (List.elem_iff.mpr hseen), ih seen]
      by_cases hm : msg.getName = n
      · subst hm; simp [hseen]
      · rw [List.filter_cons_of_neg (by simp [hm])]
    · rw [dedupeGo, if_neg (fun hc => hseen (List.elem_iff.mp hc))]
      by_cases hm : msg.getName = n
      · subst hm
        rw [List.filter_cons_of_pos (by simp), List.filter_cons_of_pos (by simp)]
        rw [ih (msg.getName :: seen)]
        rw [if_pos (List.mem_cons_self msg.getName seen), if_neg hseen]
        simp
      · rw [List.filter_cons_of_neg (by simp [hm]), List.filter_cons_of_neg (by simp [hm])]
        rw [ih (msg.getName :: seen)]
        have hiff : (n ∈ msg.getName :: seen) ↔ (n ∈ seen) := by
          simp only [List.mem_cons, or_iff_right_iff_imp]
          intro he; exact absurd he.symm hm
        by_cases hn : n ∈ seen
        · rw [if_pos (hiff.mpr hn), if_pos hn]
        · rw [if_neg (fun hc => hn (hiff.mp hc)), if_neg hn]

theorem dedupeGo_not_mem (n : String) :
    ∀ (l : List DescriptorProto) (seen : List String), n ∈ seen →
      n ∉ (dedupeGo l seen).map DescriptorProto.getName := by
  intro l
  induction l with
  | nil => intro seen _; simp [dedupeGo]
  | cons msg rest ih =>
    intro seen hn
    by_cases h : msg.getName ∈ seen
    · rw [dedupeGo, if_pos (List.elem_iff.mpr h)]
      exact ih seen hn
    · rw [dedupeGo, if_neg (fun hc => h (List.elem_iff.mp hc))]
      simp only [List.map_cons, List.mem_cons, not_or]
      refine ⟨fun he => h (he ▸ hn), ?_⟩
      exact ih (msg.getName :: seen) (List.mem_cons_of_mem msg.getName hn)

theorem dedupeGo_names_nodup :
    ∀ (l : List DescriptorProto) (seen : List String),
      ((dedupeGo l seen).map DescriptorProto.getName).Nodup := by
  intro l
  induction l with
  | nil => intro seen; simp [dedupeGo]
  | cons msg rest ih =>
    intro seen
    by_cases h : msg.getName ∈ seen
    · rw [dedupeGo, if_pos (List.elem_iff.mpr h)]
      exact ih seen
    · rw [dedupeGo, if_neg (fun hc => h (List.elem_iff.mp hc))]
      simp only [List.map_cons, List.nodup_cons]
      exact ⟨dedupeGo_not_mem msg.getName rest (msg.getName :: seen)
        (List.mem_cons_self msg.getName seen), ih (msg.getName :: seen)⟩

theorem dedupeGo_fixpoint :
    ∀ (l : List DescriptorProto) (seen : List String),
      (l.map DescriptorProto.getName).Nodup →
      (∀ x ∈ l, x.getName ∉ seen) →
      dedupeGo l seen = l := by
  intro l
  induction l with
  | nil => intro seen _ _; rfl
  | cons msg rest ih =>
    intro seen hnd hdisj
    have h : msg.getName ∉ seen := hdisj msg (List.mem_cons_self msg rest)
    simp only [List.map_cons, List.nodup_cons] at hnd
    rw [dedupeGo, if_neg (fun hc => h (List.elem_iff.mp hc))]
    rw [ih (msg.getName :: seen) hnd.2]
    intro x hx
    simp only [List.mem_cons, not_or]
    refine ⟨?_, hdisj x (List.mem_cons_of_mem msg hx)⟩
    intro he
    exact hnd.1 (he ▸ List.mem_map_of_mem DescriptorProto.getName hx)

/-- C4: `dedupeServiceMessages` preserves the input order (and content)
of the entries it retains — its output is a sublist of its input; for every
name it retains exactly the first occurrence, silently dropping every later
entry with that name even when the contents differ; and it is idempotent. -/
theorem dedupe_order_first_idempotent (m : List DescriptorProto) :
    (dedupeServiceMessages m).Sublist m
    ∧ (∀ n : String,
        (dedupeServiceMessages m).filter (fun msg => msg.getName == n)
          = (m.filter (fun msg => msg.getName == n)).take 1)
    ∧ dedupeServiceMessages (dedupeServiceMessages m) = dedupeServiceMessages m := by
  refine ⟨dedupeGo_sublist m [], fun n => ?_, ?_⟩
  · have h := dedupeGo_filter n m []
    simpa [dedupeServiceMessages] using h
  · exact dedupeGo_fixpoint (dedupeServiceMessages m) []
      (dedupeGo_names_nodup m []) (fun x _ => List.not_mem_nil x.getName)

theorem exceptOkBind {ε α β : Type} (a : α) (k : α → Except ε β) :
    (Except.ok a : Except ε α).bind k = k a := rfl

theorem exceptErrorBind {ε α β : Type} (e : ε) (k : α → Except ε β) :
    (Except.error e : Except ε α).bind k = Except.error e := rfl

theorem exceptOkSeq {ε α β : Type} (a : α) (k : α → Except ε β) :
    ((Except.ok a : Except ε α) >>= k) = k a := rfl

theorem exceptErrorSeq {ε α β : Type} (e : ε) (k : α → Except ε β) :
    ((Except.error e : Except ε α) >>= k) = Except.error e := rfl

theorem exceptPure {ε α : Type} (a : α) : (pure a : Except ε α) = Except.ok a := rfl

theorem foldlM_methods_eq (snake plural : String → String) (genType : GenType)
    (methods : Method) :
    ∀ (l : List Method) (acc : List MethodDescriptorProto × List DescriptorProto),
      (l.foldlM
          (fun (acc : List MethodDescriptorProto × List DescriptorProto) m =>
            if Method.Is methods m then
              (genMethodProtos snake plural genType m).bind fun resources =>
                Except.ok (acc.1 ++ [resources.methodDescriptor], acc.2 ++ resources.messages)
            else Except.ok acc)
          acc)
        = (collectM (genMethodProtos snake plural genType)
              (l.filter (fun m => Method.Is methods m))).bind
            fun rs =>
              Except.ok (acc.1 ++ rs.map MethodResources.methodDescriptor,
                acc.2 ++ rs.flatMap MethodResources.messages) := by
  intro l
  induction l with
  | nil =>
    intro acc
    rw [List.foldlM_nil]
    simp [collectM, exceptOkBind, exceptPure]
  | cons x xs ih =>
    intro acc
    simp only [List.foldlM_cons]
    by_cases hp : Method.Is methods x = true
    · rw [if_pos hp, List.filter_cons_of_pos hp]
      cases hgen : genMethodProtos snake plural genType x with
      | error e =>
        rw [exceptErrorBind, exceptErrorSeq]
        simp only [collectM]
        rw [hgen, exceptErrorBind, exceptErrorBind]
      | ok r =>
        rw [exceptOkBind, exceptOkSeq, ih]
        simp only [collectM]
        rw [hgen, exceptOkBind]
        cases hrest : collectM (genMethodProtos snake plural genType)
            (xs.filter (fun m => Method.Is methods m)) with
        | error e => simp [exceptErrorBind]
        | ok rs => simp [exceptOkBind, List.append_assoc]
    · rw [if_neg hp, List.filter_cons_of_neg hp, exceptOkSeq, ih]

theorem foldlM_extras_eq :
    ∀ (l : List extraMethodDef) (acc : List MethodDescriptorProto × List DescriptorProto),
      (l.foldlM
          (fun (acc : List MethodDescriptorProto × List DescriptorProto) m =>
            (genExtraMethodProtos m).bind fun resources =>
              Except.ok (acc.1 ++ [resources.methodDescriptor], acc.2 ++ resources.messages))
          acc)
        = (collectM genExtraMethodProtos l).bind
            fun rs =>
              Except.ok (acc.1 ++ rs.map MethodResources.methodDescriptor,
                acc.2 ++ rs.flatMap MethodResources.messages) := by
  intro l
  induction l with
  | nil =>
    intro acc
    rw [List.foldlM_nil]
    simp [collectM, exceptOkBind, exceptPure]
  | cons x xs ih =>
    intro acc
    simp only [List.foldlM_cons]
    cases hgen : genExtraMethodProtos x with
    | error e =>
      rw [exceptErrorBind, exceptErrorSeq]
      simp only [collectM]
      rw [hgen]
      simp [exceptErrorBind]
    | ok r =>
      rw [exceptOkBind, exceptOkSeq, ih]
      simp only [collectM]
      rw [hgen, exceptOkBind]
      cases hrest : collectM genExtraMethodProtos xs with
      | error e => simp [exceptErrorBind]
      | ok rs => simp [exceptOkBind, List.append_assoc]

theorem createServiceResources_spec_eq (snake plural : String → String) (genType : GenType)
    (methods : Method) (blockName : String) (extraMethods : List extraMethodDef) :
    createServiceResources snake plural genType methods blockName extraMethods
      = createServiceResourcesSpec snake plural genType methods blockName extraMethods := by
  simp only [createServiceResources, createServiceResourcesSpec, enabledStandardMethods]
  rw [foldlM_methods_eq]
  cases hstd : collectM (genMethodProtos snake plural genType)
      (standardMethodOrder.filter (fun m => Method.Is methods m)) with
  | error e => simp [exceptErrorBind]
  | ok std =>
    simp only [exceptOkBind]
    rw [foldlM_extras_eq]
    cases hext : collectM genExtraMethodProtos extraMethods with
    | error e => simp [exceptErrorBind]
    | ok exs => simp [exceptOkBind, List.map_append, List.flatMap_append]

/-- C7: the assembled service descriptor is named by the block-name override
when one is supplied (used verbatim) and `<Entity>Service` otherwise, and its
method sequence is exactly the enabled standard methods in the fixed order
Create, Get, Update, Delete, List, BatchCreate (filtered by the bitmask)
followed by the extra methods in declared order, over the deduplicated union
of the generated messages — stated as an unconditional equation with the
spec-side assembler `createServiceResourcesSpec`. -/
theorem assembler_name_and_method_order (snake plural : String → String) (genType : GenType)
    (methods : Method) (blockName : String) (extraMethods : List extraMethodDef) :
    createServiceResources snake plural genType methods blockName extraMethods
      = createServiceResourcesSpec snake plural genType methods blockName extraMethods :=
  createServiceResources_spec_eq snake plural genType methods blockName extraMethods

theorem Service_unfold (opts : List ServiceOption) :
    Service opts
      = (if (applyServiceOptions opts).Methods = 0
         then { applyServiceOptions opts with Methods := MethodAll }
         else applyServiceOptions opts) := rfl

/-- C10: for every option list, the `Service` constructor's resulting method
set is nonzero — when the applied options leave it zero (no `Methods` option,
or an explicit `Methods 0`) it is replaced by `MethodAll`, so an empty
standard-method set cannot be requested through the public constructor. -/
theorem service_constructor_methods_nonzero (opts : List ServiceOption) :
    (Service opts).Methods ≠ 0
    ∧ (Service opts).Methods
        = (if (applyServiceOptions opts).Methods = 0 then MethodAll
           else (applyServiceOptions opts).Methods)
    ∧ (Service []).Methods = MethodAll
    ∧ (Service [Methods 0]).Methods = MethodAll := by
  refine ⟨?_, ?_, rfl, rfl⟩
  · rw [Service_unfold]
    by_cases h : (applyServiceOptions opts).Methods = 0
    · rw [if_pos h]
      show MethodAll ≠ 0
      decide
    · rw [if_neg h]; exact h
  · rw [Service_unfold]
    by_cases h : (applyServiceOptions opts).Methods = 0
    · rw [if_pos h, if_pos h]
    · rw [if_neg h, if_neg h]

theorem extraFieldDescriptor_number (f : pbfield) :
    (extraFieldDescriptor f).number = some (int32 f.Number) := by
  unfold extraFieldDescriptor
  by_cases h1 : f.TypeName ≠ "" <;> by_cases h2 : f.Repeated = true <;> simp [h1, h2]

theorem extraFieldDescriptor_name (f : pbfield) :
    (extraFieldDescriptor f).name = some f.FieldName := by
  unfold extraFieldDescriptor
  by_cases h1 : f.TypeName ≠ "" <;> by_cases h2 : f.Repeated = true <;> simp [h1, h2]

/-- Counterexample to C8: an extra method whose two input definitions share
field number 1 does not fail with any duplicate-number error — synthesis
succeeds and emits a request message whose two fields both carry number 1. -/
theorem extra_dup_numbers_counterexample :
    genExtraMethodProtos dupExtraDef = Except.ok dupExtraResources
    ∧ (dupExtraResources.messages.map fun msg => msg.field.map FieldDescriptorProto.number)
        = [[some 1, some 1], []] := by
  exact ⟨rfl, rfl⟩

/-- C8 as amended: extra-method synthesis never fails and performs no
duplicate-number validation; it emits one field per definition, preserving
declared names and (int32-converted) numbers verbatim even when two
definitions in the same direction share a number. -/
theorem extra_method_never_validates (e : extraMethodDef) :
    ∃ r, genExtraMethodProtos e = Except.ok r
      ∧ (r.messages.map fun msg => msg.field.map FieldDescriptorProto.number)
          = [e.InputFields.map (fun f => some (int32 f.Number)),
             e.OutputFields.map (fun f => some (int32 f.Number))]
      ∧ (r.messages.map fun msg => msg.field.map FieldDescriptorProto.name)
          = [e.InputFields.map (fun f => some f.FieldName),
             e.OutputFields.map (fun f => some f.FieldName)] := by
  refine ⟨_, rfl, ?_, ?_⟩
  · simp [genExtraMethodProtos, List.map_map, Function.comp_def, extraFieldDescriptor_number]
  · simp [genExtraMethodProtos, List.map_map, Function.comp_def, extraFieldDescriptor_name]

theorem genMethodProtos_get_eq (snake plural : String → String) (gt : GenType)
    (d : FieldDescriptorProto) (hid : gt.idDescriptor = Except.ok d) :
    genMethodProtos snake plural gt MethodGet
      = Except.ok
          { methodDescriptor :=
              { name := some ("Get" ++ gt.Name),
                inputType := some ("Get" ++ gt.Name ++ "Request"),
                outputType := some gt.Name },
            messages :=
              [ { name := some ("Get" ++ gt.Name ++ "Request"),
                  field :=
                    [ d,
                      { name := some "view", number := some 2,
                        type := some FieldType.TYPE_ENUM, typeName := some "View" } ],
                  enumType := [viewEnumDescriptor] } ] } := by
  simp [genMethodProtos, genMethodBranch, hid,
    MethodGet, MethodCreate, MethodUpdate, MethodDelete, MethodList, MethodBatchCreate]

theorem genMethodProtos_create_eq (snake plural : String → String) (gt : GenType)
    (d : FieldDescriptorProto) (hid : gt.idDescriptor = Except.ok d) :
    genMethodProtos snake plural gt MethodCreate
      = Except.ok
          { methodDescriptor :=
              { name := some ("Create" ++ gt.Name),
                inputType := some ("Create" ++ gt.Name ++ "Request"),
                outputType := some gt.Name },
            messages := [createReqMsg snake gt] } := by
  simp [genMethodProtos, genMethodBranch, hid, createReqMsg,
    MethodGet, MethodCreate, MethodUpdate, MethodDelete, MethodList, MethodBatchCreate]

theorem genMethodProtos_update_eq (snake plural : String → String) (gt : GenType)
    (d : FieldDescriptorProto) (hid : gt.idDescriptor = Except.ok d) :
    genMethodProtos snake plural gt MethodUpdate
      = Except.ok
          { methodDescriptor :=
              { name := some ("Update" ++ gt.Name),
                inputType := some ("Update" ++ gt.Name ++ "Request"),
                outputType := some gt.Name },
            messages :=
              [ { name := some ("Update" ++ gt.Name ++ "Request"),
                  field := [singleMessageField snake gt] } ] } := by
  simp [genMethodProtos, genMethodBranch, hid,
    MethodGet, MethodCreate, MethodUpdate, MethodDelete, MethodList, MethodBatchCreate]

theorem genMethodProtos_delete_eq (snake plural : String → String) (gt : GenType)
    (d : FieldDescriptorProto) (hid : gt.idDescriptor = Except.ok d) :
    genMethodProtos snake plural gt MethodDelete
      = Except.ok
          { methodDescriptor :=
              { name := some ("Delete" ++ gt.Name),
                inputType := some ("Delete" ++ gt.Name ++ "Request"),
                outputType := some "google.protobuf.Empty" },
            messages :=
              [ { name := some ("Delete" ++ gt.Name ++ "Request"),
                  field := [d] } ] } := by
  simp [genMethodProtos, genMethodBranch, hid,
    MethodGet, MethodCreate, MethodUpdate, MethodDelete, MethodList, MethodBatchCreate]

theorem genMethodProtos_list_eq (snake plural : String → String) (gt : GenType)
    (d : FieldDescriptorProto) (hid : gt.idDescriptor = Except.ok d)
    (hsup : (gt.idInteger || gt.idIsUUID || gt.idIsString) = true) :
    genMethodProtos snake plural gt MethodList
      = Except.ok
          { methodDescriptor :=
              { name := some ("List" ++ gt.Name),
                inputType := some ("List" ++ gt.Name ++ "Request"),
                outputType := some ("List" ++ gt.Name ++ "Response") },
            messages :=
              [ { name := some ("List" ++ gt.Name ++ "Request"),
                  field :=
                    [ { name := some "page_size", number := some 1,
                        type := some FieldType.TYPE_INT32 },
                      { name := some "page_token", number := some 2,
                        type := some FieldType.TYPE_STRING },
                      { name := some "view", number := some 3,
                        type := some FieldType.TYPE_ENUM, typeName := some "View" } ],
                  enumType := [viewEnumDescriptor] },
                { name := some ("List" ++ gt.Name ++ "Response"),
                  field :=
                    [ { name := some (snake gt.Name ++ "_list"), number := some 1,
                        label := some FieldLabel.LABEL_REPEATED,
                        type := some FieldType.TYPE_MESSAGE, typeName := some gt.Name },
                      { name := some "next_page_token", number := some 2,
                        type := some FieldType.TYPE_STRING } ] } ] } := by
  simp [genMethodProtos, genMethodBranch, hid, hsup,
    MethodGet, MethodCreate, MethodUpdate, MethodDelete, MethodList, MethodBatchCreate]

theorem genMethodProtos_list_unsupported_eq (snake plural : String → String) (gt : GenType)
    (d : FieldDescriptorProto) (hid : gt.idDescriptor = Except.ok d)
    (hsup : (gt.idInteger || gt.idIsUUID || gt.idIsString) = false) :
    genMethodProtos snake plural gt MethodList
      = Except.error (GenError.unsupportedIDType gt.Name gt.idTypeString) := by
  simp [genMethodProtos, genMethodBranch, hid, hsup,
    MethodGet, MethodCreate, MethodUpdate, MethodDelete, MethodList, MethodBatchCreate]

theorem genMethodProtos_batch_eq (snake plural : String → String) (gt : GenType)
    (d : FieldDescriptorProto) (hid : gt.idDescriptor = Except.ok d) :
    genMethodProtos snake plural gt MethodBatchCreate
      = Except.ok
          { methodDescriptor :=
              { name := some ("BatchCreate" ++ gt.Name),
                inputType := some ("BatchCreate" ++ plural gt.Name ++ "Request"),
                outputType := some ("BatchCreate" ++ plural gt.Name ++ "Response") },
            messages :=
              [ createReqMsg snake gt,
                { name := some ("BatchCreate" ++ plural gt.Name ++ "Request"),
                  field :=
                    [ { name := some "requests", number := some 1,
                        label := some FieldLabel.LABEL_REPEATED,
                        type := some FieldType.TYPE_MESSAGE,
                        typeName := some ("Create" ++ gt.Name ++ "Request") } ] },
                { name := some ("BatchCreate" ++ plural gt.Name ++ "Response"),
                  field := [repeatedMessageField snake plural gt] } ] } := by
  simp [genMethodProtos, genMethodBranch, hid, createReqMsg,
    MethodGet, MethodCreate, MethodUpdate, MethodDelete, MethodList, MethodBatchCreate]

theorem genMethodProtos_default_eq (snake plural : String → String) (gt : GenType)
    (d : FieldDescriptorProto) (hid : gt.idDescriptor = Except.ok d) (m : Method)
    (h1 : ¬m = MethodGet) (h2 : ¬m = MethodCreate) (h3 : ¬m = MethodUpdate)
    (h4 : ¬m = MethodDelete) (h5 : ¬m = MethodList) (h6 : ¬m = MethodBatchCreate) :
    genMethodProtos snake plural gt m = Except.error (GenError.unknownMethod m) := by
  simp [genMethodProtos, genMethodBranch, hid, h1, h2, h3, h4, h5, h6]

theorem collectM_ok_of_mem {ε α β : Type} (gen : α → Except ε β) :
    ∀ (l : List α) (rs : List β), collectM gen l = Except.ok rs →
      ∀ x ∈ l, ∃ r, gen x = Except.ok r := by
  intro l
  induction l with
  | nil => intro rs _ x hx; cases hx
  | cons a as ih =>
    intro rs h x hx
    simp only [collectM] at h
    cases hgen : gen a with
    | error e => rw [hgen, exceptErrorBind] at h; cases h
    | ok r =>
      rw [hgen, exceptOkBind] at h
      cases hrest : collectM gen as with
      | error e => rw [hrest, exceptErrorBind] at h; cases h
      | ok rs2 =>
        cases hx with
        | head => exact ⟨r, hgen⟩
        | tail _ hx2 => exact ih rs2 hrest x hx2

/-- C5: for an entity whose ID field converts to a proto descriptor,
synthesizing the List method fails with the unsupported-ID-type error (over
the entity name and rendered ID type) exactly when the ID type is in none of
the integer / UUID / string families; in the failure case the `Except` error
carries no method descriptor and no messages. -/
theorem list_unsupported_id_iff (snake plural : String → String) (gt : GenType)
    (d : FieldDescriptorProto) (hid : gt.idDescriptor = Except.ok d) :
    (genMethodProtos snake plural gt MethodList
        = Except.error (GenError.unsupportedIDType gt.Name gt.idTypeString))
      ↔ (gt.idInteger || gt.idIsUUID || gt.idIsString) = false := by
  cases hb : (gt.idInteger || gt.idIsUUID || gt.idIsString) with
  | false =>
    simp [genMethodProtos, genMethodBranch, hid, hb,
      MethodGet, MethodCreate, MethodUpdate, MethodDelete, MethodList, MethodBatchCreate]
  | true =>
    simp [genMethodProtos, genMethodBranch, hid, hb,
      MethodGet, MethodCreate, MethodUpdate, MethodDelete, MethodList, MethodBatchCreate]

/-- Witness for C5: a float-ID entity makes List fail with the
unsupported-ID-type error. -/
theorem list_unsupported_id_iff_witness :
    genMethodProtos snakeSample pluralSample priceGenType MethodList
      = Except.error (GenError.unsupportedIDType "Price" "float64") :=
  (list_unsupported_id_iff snakeSample pluralSample priceGenType _ rfl).mpr rfl

/-- C6: for an entity with a supported ID type, the List request message has
exactly the fields page_size (INT32, number 1), page_token (STRING, number 2)
and view (ENUM View, number 3) — no id field — and the List response message
has exactly `<entity>_list` (repeated MESSAGE of the entity type, number 1)
and next_page_token (STRING, number 2). -/
theorem list_method_shape (snake plural : String → String) (gt : GenType)
    (d : FieldDescriptorProto) (hid : gt.idDescriptor = Except.ok d)
    (hsup : (gt.idInteger || gt.idIsUUID || gt.idIsString) = true) :
    genMethodProtos snake plural gt MethodList
      = Except.ok
          { methodDescriptor :=
              { name := some ("List" ++ gt.Name),
                inputType := some ("List" ++ gt.Name ++ "Request"),
                outputType := some ("List" ++ gt.Name ++ "Response") },
            messages :=
              [ { name := some ("List" ++ gt.Name ++ "Request"),
                  field :=
                    [ { name := some "page_size", number := some 1,
                        type := some FieldType.TYPE_INT32 },
                      { name := some "page_token", number := some 2,
                        type := some FieldType.TYPE_STRING },
                      { name := some "view", number := some 3,
                        type := some FieldType.TYPE_ENUM, typeName := some "View" } ],
                  enumType := [viewEnumDescriptor] },
                { name := some ("List" ++ gt.Name ++ "Response"),
                  field :=
                    [ { name := some (snake gt.Name ++ "_list"), number := some 1,
                        label := some FieldLabel.LABEL_REPEATED,
                        type := some FieldType.TYPE_MESSAGE, typeName := some gt.Name },
                      { name := some "next_page_token", number := some 2,
                        type := some FieldType.TYPE_STRING } ] } ] } :=
  genMethodProtos_list_eq snake plural gt d hid hsup

/-- Witness for C6 at the sample integer-ID `User` entity. -/
theorem list_method_shape_witness :
    userGenType.idDescriptor = Except.ok userIdField
    ∧ (userGenType.idInteger || userGenType.idIsUUID || userGenType.idIsString) = true
    ∧ genMethodProtos snakeSample pluralSample userGenType MethodList
        = Except.ok listUserResources :=
  ⟨rfl, rfl, list_method_shape snakeSample pluralSample userGenType userIdField rfl rfl⟩

/-- Counterexample to C3: for entity `User` the BatchCreate response field is
named `users` (snake-cased plural with no suffix), not `users_list` as the
claim states. -/
theorem batch_response_field_name_counterexample :
    genMethodProtos snakeSample pluralSample userGenType MethodBatchCreate
      = Except.ok batchCreateUserResources
    ∧ (batchCreateUserResources.messages.map fun msg =>
          msg.field.map FieldDescriptorProto.name)
        = [[some "user"], [some "requests"], [some "users"]]
    ∧ some "users" ≠ some (snakeSample (pluralSample "User") ++ "_list") :=
  ⟨rfl, rfl, by decide⟩

/-- C3 as amended: the BatchCreate output message is named
`BatchCreate<Entities>Response` (pluralized) and contains exactly one field —
the snake-cased pluralized entity name with no `_list` suffix — a repeated
MESSAGE field of the entity type with number 1. -/
theorem batch_method_shape (snake plural : String → String) (gt : GenType)
    (d : FieldDescriptorProto) (hid : gt.idDescriptor = Except.ok d) :
    genMethodProtos snake plural gt MethodBatchCreate
      = Except.ok
          { methodDescriptor :=
              { name := some ("BatchCreate" ++ gt.Name),
                inputType := some ("BatchCreate" ++ plural gt.Name ++ "Request"),
                outputType := some ("BatchCreate" ++ plural gt.Name ++ "Response") },
            messages :=
              [ createReqMsg snake gt,
                { name := some ("BatchCreate" ++ plural gt.Name ++ "Request"),
                  field :=
                    [ { name := some "requests", number := some 1,
                        label := some FieldLabel.LABEL_REPEATED,
                        type := some FieldType.TYPE_MESSAGE,
                        typeName := some ("Create" ++ gt.Name ++ "Request") } ] },
                { name := some ("BatchCreate" ++ plural gt.Name ++ "Response"),
                  field := [repeatedMessageField snake plural gt] } ] } :=
  genMethodProtos_batch_eq snake plural gt d hid

/-- Witness for the amended C3 at the sample `User` entity. -/
theorem batch_method_shape_witness :
    userGenType.idDescriptor = Except.ok userIdField
    ∧ genMethodProtos snakeSample pluralSample userGenType MethodBatchCreate
        = Except.ok batchCreateUserResources :=
  ⟨rfl, batch_method_shape snakeSample pluralSample userGenType userIdField rfl⟩

/-- C2 divergence: with all methods enabled, exactly six standard method
descriptors are generated and five follow `<Kind><Entity>`, but the
BatchCreate method is named `BatchCreateUser` — the entity name is NOT
pluralized (while the same branch's request/response messages are
`BatchCreateUsersRequest`/`BatchCreateUsersResponse`), contradicting the
claimed `BatchCreateUsers`. -/
theorem batch_method_name_not_pluralized :
    (createServiceResources snakeSample pluralSample userGenType MethodAll "" []).map
        (fun out => out.svc.method.map MethodDescriptorProto.name)
      = Except.ok [some "CreateUser", some "GetUser", some "UpdateUser",
          some "DeleteUser", some "ListUser", some "BatchCreateUser"]
    ∧ pluralSample "User" = "Users"
    ∧ some "BatchCreateUser" ≠ some "BatchCreateUsers" :=
  ⟨rfl, rfl, by decide⟩

/-- Counterexample to C9: assembling `User` with Create enabled plus an extra
method whose two input definitions share number 1 succeeds, and the output
message set contains `AuditRequest` whose field numbers `[1, 1]` are not
pairwise distinct. -/
theorem dup_extra_breaks_number_uniqueness :
    createServiceResources snakeSample pluralSample userGenType MethodCreate "" [dupExtraDef]
      = Except.ok dupServiceOut
    ∧ auditReqMsg ∈ dupServiceOut.svcMessages
    ∧ ¬(auditReqMsg.field.map FieldDescriptorProto.number).Nodup :=
  ⟨rfl, by decide, by decide⟩

/-- C9 as amended: every message synthesized for a standard method has
pairwise-distinct field numbers provided the entity ID descriptor's number is
not 2 (the fixed view number of the Get request); extra-method messages copy
the user-declared numbers, so they are distinct exactly when the declared
(int32-converted) numbers are distinct within each direction. -/
theorem generated_messages_numbers_nodup (snake plural : String → String) (gt : GenType)
    (d : FieldDescriptorProto) (hid : gt.idDescriptor = Except.ok d)
    (hd2 : d.number ≠ some 2) :
    (∀ (m : Method) (r : MethodResources), genMethodProtos snake plural gt m = Except.ok r →
        ∀ msg ∈ r.messages, (msg.field.map FieldDescriptorProto.number).Nodup)
    ∧ (∀ (e : extraMethodDef) (r : MethodResources), genExtraMethodProtos e = Except.ok r →
        (e.InputFields.map (fun f => int32 f.Number)).Nodup →
        (e.OutputFields.map (fun f => int32 f.Number)).Nodup →
        ∀ msg ∈ r.messages, (msg.field.map FieldDescriptorProto.number).Nodup) := by
  constructor
  · intro m r h msg hmsg
    by_cases h1 : m = MethodGet
    · subst h1
      rw [genMethodProtos_get_eq snake plural gt d hid] at h
      injection h with h
      subst h
      simp only [List.mem_singleton] at hmsg
      subst hmsg
      simp [hd2]
    · by_cases h2 : m = MethodCreate
      · subst h2
        rw [genMethodProtos_create_eq snake plural gt d hid] at h
        injection h with h
        subst h
        simp only [List.mem_singleton] at hmsg
        subst hmsg
        simp [createReqMsg, singleMessageField]
      · by_cases h3 : m = MethodUpdate
        · subst h3
          rw [genMethodProtos_update_eq snake plural gt d hid] at h
          injection h with h
          subst h
          simp only [List.mem_singleton] at hmsg
          subst hmsg
          simp [singleMessageField]
        · by_cases h4 : m = MethodDelete
          · subst h4
            rw [genMethodProtos_delete_eq snake plural gt d hid] at h
            injection h with h
            subst h
            simp only [List.mem_singleton] at hmsg
            subst hmsg
            simp
          · by_cases h5 : m = MethodList
            · subst h5
              cases hsup : (gt.idInteger || gt.idIsUUID || gt.idIsString) with
              | false =>
                rw [genMethodProtos_list_unsupported_eq snake plural gt d hid hsup] at h
                cases h
              | true =>
                rw [genMethodProtos_list_eq snake plural gt d hid hsup] at h
                injection h with h
                subst h
                simp only [List.mem_cons, List.mem_singleton] at hmsg
                rcases hmsg with hmsg | hmsg | hmsg
                · subst hmsg; simp
                · subst hmsg; simp
                · cases hmsg
            · by_cases h6 : m = MethodBatchCreate
              · subst h6
                rw [genMethodProtos_batch_eq snake plural gt d hid] at h
                injection h with h
                subst h
                simp only [List.mem_cons, List.mem_singleton] at hmsg
                rcases hmsg with hmsg | hmsg | hmsg | hmsg
                · subst hmsg; simp [createReqMsg, singleMessageField]
                · subst hmsg; simp
                · subst hmsg; simp [repeatedMessageField]
                · cases hmsg
              · rw [genMethodProtos_default_eq snake plural gt d hid m h1 h2 h3 h4 h5 h6] at h
                cases h
  · intro e r h hin hout msg hmsg
    simp only [genExtraMethodProtos] at h
    injection h with h
    subst h
    simp only [List.mem_cons, List.mem_singleton] at hmsg
    rcases hmsg with hmsg | hmsg | hmsg
    · subst hmsg
      simp only [List.map_map]
      have heq : (FieldDescriptorProto.number ∘ extraFieldDescriptor)
          = fun f => some (int32 f.Number) := by
        funext f
        exact extraFieldDescriptor_number f
      rw [heq]
      have : (e.InputFields.map fun f => some (int32 f.Number))
          = (e.InputFields.map fun f => int32 f.Number).map some := by
        rw [List.map_map]; rfl
      rw [this]
      exact hin.map (Option.some_injective Int)
    · subst hmsg
      simp only [List.map_map]
      have heq : (FieldDescriptorProto.number ∘ extraFieldDescriptor)
          = fun f => some (int32 f.Number) := by
        funext f
        exact extraFieldDescriptor_number f
      rw [heq]
      have : (e.OutputFields.map fun f => some (int32 f.Number))
          = (e.OutputFields.map fun f => int32 f.Number).map some := by
        rw [List.map_map]; rfl
      rw [this]
      exact hout.map (Option.some_injective Int)
    · cases hmsg

/-- Witness for the amended C9 at the Get request of the sample `User`. -/
theorem generated_messages_numbers_nodup_witness :
    userGenType.idDescriptor = Except.ok userIdField
    ∧ userIdField.number ≠ some 2
    ∧ genMethodProtos snakeSample pluralSample userGenType MethodGet
        = Except.ok getUserResources
    ∧ (getUserRequestMsg.field.map FieldDescriptorProto.number).Nodup :=
  ⟨rfl, by decide, rfl,
    (generated_messages_numbers_nodup snakeSample pluralSample userGenType userIdField
        rfl (by decide)).1 MethodGet getUserResources rfl getUserRequestMsg (by decide)⟩

theorem head_of_lit_append (lit : String) (c : Char) (h : lit.data.head? = some c)
    (s : String) : (lit ++ s).data.head? = some c := by
  rw [String.data_append]
  cases hl : lit.data with
  | nil => rw [hl] at h; cases h
  | cons x xs => rw [hl] at h; simpa using h

theorem branch_filter_createReq (snake plural : String → String) (gt : GenType)
    (d : FieldDescriptorProto) (hid : gt.idDescriptor = Except.ok d)
    (m : Method) (hm : m ∈ standardMethodOrder) (r : MethodResources)
    (h : genMethodProtos snake plural gt m = Except.ok r) :
    r.messages.filter (fun msg => msg.getName == ("Create" ++ gt.Name ++ "Request"))
      = if m = MethodCreate ∨ m = MethodBatchCreate
        then [createReqMsg snake gt] else [] := by
  have hC : ("Create" ++ gt.Name).data.head? = some 'C' :=
    head_of_lit_append "Create" 'C' rfl gt.Name
  have hGet : ("Get" ++ gt.Name ++ "Request") ≠ ("Create" ++ gt.Name ++ "Request") :=
    append_ne_append_of_head (by decide) ("Get" ++ gt.Name) ("Create" ++ gt.Name)
      "Request" "Request" (head_of_lit_append "Get" 'G' rfl gt.Name) hC
  have hUpd : ("Update" ++ gt.Name ++ "Request") ≠ ("Create" ++ gt.Name ++ "Request") :=
    append_ne_append_of_head (by decide) ("Update" ++ gt.Name) ("Create" ++ gt.Name)
      "Request" "Request" (head_of_lit_append "Update" 'U' rfl gt.Name) hC
  have hDel : ("Delete" ++ gt.Name ++ "Request") ≠ ("Create" ++ gt.Name ++ "Request") :=
    append_ne_append_of_head (by decide) ("Delete" ++ gt.Name) ("Create" ++ gt.Name)
      "Request" "Request" (head_of_lit_append "Delete" 'D' rfl gt.Name) hC
  have hLReq : ("List" ++ gt.Name ++ "Request") ≠ ("Create" ++ gt.Name ++ "Request") :=
    append_ne_append_of_head (by decide) ("List" ++ gt.Name) ("Create" ++ gt.Name)
      "Request" "Request" (head_of_lit_append "List" 'L' rfl gt.Name) hC
  have hLResp : ("List" ++ gt.Name ++ "Response") ≠ ("Create" ++ gt.Name ++ "Request") :=
    append_ne_append_of_head (by decide) ("List" ++ gt.Name) ("Create" ++ gt.Name)
      "Response" "Request" (head_of_lit_append "List" 'L' rfl gt.Name) hC
  have hBReq : ("BatchCreate" ++ plural gt.Name ++ "Request")
      ≠ ("Create" ++ gt.Name ++ "Request") :=
    append_ne_append_of_head (by decide) ("BatchCreate" ++ plural gt.Name)
      ("Create" ++ gt.Name) "Request" "Request"
      (head_of_lit_append "BatchCreate" 'B' rfl (plural gt.Name)) hC
  have hBResp : ("BatchCreate" ++ plural gt.Name ++ "Response")
      ≠ ("Create" ++ gt.Name ++ "Request") :=
    append_ne_append_of_head (by decide) ("BatchCreate" ++ plural gt.Name)
      ("Create" ++ gt.Name) "Response" "Request"
      (head_of_lit_append "BatchCreate" 'B' rfl (plural gt.Name)) hC
  simp only [standardMethodOrder, List.mem_cons, List.not_mem_nil, or_false] at hm
  rcases hm with rfl | rfl | rfl | rfl | rfl | rfl
  · rw [genMethodProtos_create_eq snake plural gt d hid] at h
    injection h with h
    subst h
    rw [if_pos (Or.inl rfl)]
    rw [List.filter_cons_of_pos (by simp [createReqMsg, DescriptorProto.getName])]
    rfl
  · rw [genMethodProtos_get_eq snake plural gt d hid] at h
    injection h with h
    subst h
    rw [if_neg (by decide)]
    rw [List.filter_cons_of_neg (by simp [DescriptorProto.getName, hGet])]
    rfl
  · rw [genMethodProtos_update_eq snake plural gt d hid] at h
    injection h with h
    subst h
    rw [if_neg (by decide)]
    rw [List.filter_cons_of_neg (by simp [DescriptorProto.getName, hUpd])]
    rfl
  · rw [genMethodProtos_delete_eq snake plural gt d hid] at h
    injection h with h
    subst h
    rw [if_neg (by decide)]
    rw [List.filter_cons_of_neg (by simp [DescriptorProto.getName, hDel])]
    rfl
  · cases hsup : (gt.idInteger || gt.idIsUUID || gt.idIsString) with
    | false =>
      rw [genMethodProtos_list_unsupported_eq snake plural gt d hid hsup] at h
      cases h
    | true =>
      rw [genMethodProtos_list_eq snake plural gt d hid hsup] at h
      injection h with h
      subst h
      rw [if_neg (by decide)]
      rw [List.filter_cons_of_neg (by simp [DescriptorProto.getName, hLReq]),
        List.filter_cons_of_neg (by simp [DescriptorProto.getName, hLResp])]
      rfl
  · rw [genMethodProtos_batch_eq snake plural gt d hid] at h
    injection h with h
    subst h
    rw [if_pos (Or.inr rfl)]
    rw [List.filter_cons_of_pos (by simp [createReqMsg, DescriptorProto.getName]),
      List.filter_cons_of_neg (by simp [DescriptorProto.getName, hBReq]),
      List.filter_cons_of_neg (by simp [DescriptorProto.getName, hBResp])]
    rfl

theorem collect_filter_createReq (snake plural : String → String) (gt : GenType)
    (d : FieldDescriptorProto) (hid : gt.idDescriptor = Except.ok d) :
    ∀ (ms : List Method), (∀ m ∈ ms, m ∈ standardMethodOrder) →
      ∀ rs, collectM (genMethodProtos snake plural gt) ms = Except.ok rs →
        (rs.flatMap MethodResources.messages).filter
            (fun msg => msg.getName == ("Create" ++ gt.Name ++ "Request"))
          = (ms.filter (fun m => decide (m = MethodCreate ∨ m = MethodBatchCreate))).map
              (fun _ => createReqMsg snake gt) := by
  intro ms
  induction ms with
  | nil =>
    intro _ rs h
    simp only [collectM] at h
    injection h with h
    subst h
    rfl
  | cons a as ih =>
    intro hmem rs h
    simp only [collectM] at h
    cases hgen : genMethodProtos snake plural gt a with
    | error e => rw [hgen, exceptErrorBind] at h; cases h
    | ok r =>
      rw [hgen, exceptOkBind] at h
      cases hrest : collectM (genMethodProtos snake plural gt) as with
      | error e => rw [hrest, exceptErrorBind] at h; cases h
      | ok rs2 =>
        rw [hrest, exceptOkBind] at h
        injection h with h
        subst h
        rw [List.flatMap_cons, List.filter_append]
        rw [branch_filter_createReq snake plural gt d hid a
          (hmem a (List.mem_cons_self a as)) r hgen]
        rw [ih (fun x hx => hmem x (List.mem_cons_of_mem a hx)) rs2 hrest]
        by_cases hc : a = MethodCreate ∨ a = MethodBatchCreate
        · rw [if_pos hc, List.filter_cons_of_pos (by simpa using hc), List.map_cons]
          rfl
        · rw [if_neg hc, List.filter_cons_of_neg (by simpa using hc)]
          rfl

/-- C1: whenever the enabled method set includes BatchCreate and the
assembler succeeds, the deduplicated output message set contains a message
named `Create<Entity>Request` whose single field is the snake-cased,
entity-typed MESSAGE field numbered 1 — also when `MethodCreate` is not in
the set — so the BatchCreate request's `requests` field never references a
missing type. -/
theorem batchcreate_emits_create_request (snake plural : String → String) (gt : GenType)
    (methods : Method) (blockName : String) (extras : List extraMethodDef)
    (out : ServiceResources)
    (hbc : Method.Is methods MethodBatchCreate = true)
    (hok : createServiceResources snake plural gt methods blockName extras
        = Except.ok out) :
    ∃ msg ∈ out.svcMessages,
      msg.name = some ("Create" ++ gt.Name ++ "Request")
      ∧ msg.field =
          [{ name := some (snake gt.Name), number := some 1,
             type := some FieldType.TYPE_MESSAGE, typeName := some gt.Name }] := by
  rw [createServiceResources_spec_eq] at hok
  simp only [createServiceResourcesSpec] at hok
  cases hstd : collectM (genMethodProtos snake plural gt) (enabledStandardMethods methods) with
  | error e => rw [hstd, exceptErrorBind] at hok; cases hok
  | ok std =>
    rw [hstd, exceptOkBind] at hok
    cases hext : collectM genExtraMethodProtos extras with
    | error e => rw [hext, exceptErrorBind] at hok; cases hok
    | ok exs =>
      rw [hext, exceptOkBind] at hok
      injection hok with hok
      have hbcmem : MethodBatchCreate ∈ enabledStandardMethods methods :=
        List.mem_filter.mpr (by simp [standardMethodOrder, hbc])
      obtain ⟨rb, hrb⟩ :=
        collectM_ok_of_mem (genMethodProtos snake plural gt)
          (enabledStandardMethods methods) std hstd MethodBatchCreate hbcmem
      obtain ⟨d, hid⟩ : ∃ d, gt.idDescriptor = Except.ok d := by
        cases hh : gt.idDescriptor with
        | error e => simp [genMethodProtos, hh] at hrb
        | ok d => exact ⟨d, rfl⟩
      have hstdfil := collect_filter_createReq snake plural gt d hid
        (enabledStandardMethods methods)
        (fun x hx => List.mem_of_mem_filter hx) std hstd
      have hpredmem : MethodBatchCreate ∈ (enabledStandardMethods methods).filter
          (fun m => decide (m = MethodCreate ∨ m = MethodBatchCreate)) :=
        List.mem_filter.mpr ⟨hbcmem, by decide⟩
      have hfil := dedupeGo_filter ("Create" ++ gt.Name ++ "Request")
        ((std ++ exs).flatMap MethodResources.messages) []
      rw [if_neg (List.not_mem_nil _)] at hfil
      rw [List.flatMap_append, List.filter_append, hstdfil] at hfil
      obtain ⟨p, ps, hps⟩ : ∃ p ps, (enabledStandardMethods methods).filter
          (fun m => decide (m = MethodCreate ∨ m = MethodBatchCreate)) = p :: ps := by
        cases hq : (enabledStandardMethods methods).filter
            (fun m => decide (m = MethodCreate ∨ m = MethodBatchCreate)) with
        | nil => rw [hq] at hpredmem; cases hpredmem
        | cons p ps => exact ⟨p, ps, rfl⟩
      rw [hps, List.map_cons, List.cons_append, List.take_succ_cons, List.take_zero] at hfil
      have hmemfil : createReqMsg snake gt ∈
          (dedupeGo ((std ++ exs).flatMap MethodResources.messages) []).filter
            (fun msg => msg.getName == ("Create" ++ gt.Name ++ "Request")) := by
        rw [List.flatMap_append, hfil]
        exact List.mem_singleton_self _
      have hmemdedupe := List.mem_of_mem_filter hmemfil
      refine ⟨createReqMsg snake gt, ?_, rfl, rfl⟩
      rw [← hok]
      exact hmemdedupe

/-- Witness for C1: with only BatchCreate enabled (Create excluded), the
assembled message set still contains `CreateUserRequest`. -/
theorem batchcreate_emits_create_request_witness :
    Method.Is MethodBatchCreate MethodBatchCreate = true
    ∧ createServiceResources snakeSample pluralSample userGenType MethodBatchCreate "" []
        = Except.ok batchOnlyOut
    ∧ ∃ msg ∈ batchOnlyOut.svcMessages,
        msg.name = some ("Create" ++ userGenType.Name ++ "Request")
        ∧ msg.field =
            [{ name := some (snakeSample userGenType.Name), number := some 1,
               type := some FieldType.TYPE_MESSAGE, typeName := some userGenType.Name }] :=
  ⟨rfl, rfl,
    batchcreate_emits_create_request snakeSample pluralSample userGenType
      MethodBatchCreate "" [] batchOnlyOut rfl rfl⟩
end Entproto
